import Mathlib

/-!
Verification of the bracket derivation engine of the nba-predict repository.

The embedding follows the source:
* `src/lib/teams-config.ts` — the `BracketKey` union, the `MatchupData` record,
  the fixed constant `initialBracket`, and `updateBracketStructure`;
* `src/components/playoff-bracket.tsx` (lines 208–246) — the `useEffect` that
  derives the displayed bracket from the current prediction set;
* the mongodb module (`saveUserPredictions`) — the champion extraction
  `userPredictions.F1 || null`.

Prediction sets are modelled as association lists `List (String × Option String)`
in JavaScript object-entry iteration order: a key is an arbitrary string (the
component casts freely, and stale sets may carry unknown ids), a value of
`none` models `undefined`/`null`, and `some ""` the empty string; both are
falsy, matching the `!winningTeamId` guard in the source.  JavaScript object
keys are unique, captured by the `keysNodup` predicate where it matters.
-/

/-- The `BracketKey` string union of `teams-config.ts`. -/
inductive BKey
  | E1 | E2 | E3 | E4
  | W1 | W2 | W3 | W4
  | E5 | E6 | W5 | W6
  | E7 | W7 | F1
deriving DecidableEq, Fintype, Repr

/-- The two slots of a matchup (`"team1" | "team2"` in the source). -/
inductive SlotPos
  | team1 | team2
deriving DecidableEq, Fintype, Repr

/-- `MatchupData` of `teams-config.ts`.  Team slots hold team-key strings
(`NbaTeamKey` is a string union) or `null`. -/
@[ext] structure MatchupData where
  round : Nat
  matchupId : BKey
  team1 : Option String
  team2 : Option String
  nextMatchup : Option BKey
  winnerPosition : Option SlotPos
deriving DecidableEq, Repr

/-- `BracketStructure = Record<BracketKey, MatchupData>`. -/
def BracketStructure := BKey → MatchupData

instance : DecidableEq BracketStructure :=
  fun b₁ b₂ => Fintype.decidablePiFintype b₁ b₂

/-- The string spelling of each bracket key. -/
def bkeyStr : BKey → String
  | .E1 => "E1" | .E2 => "E2" | .E3 => "E3" | .E4 => "E4"
  | .W1 => "W1" | .W2 => "W2" | .W3 => "W3" | .W4 => "W4"
  | .E5 => "E5" | .E6 => "E6" | .W5 => "W5" | .W6 => "W6"
  | .E7 => "E7" | .W7 => "W7" | .F1 => "F1"

/-- All fifteen bracket keys. -/
def allBKeys : List BKey :=
  [.E1, .E2, .E3, .E4, .W1, .W2, .W3, .W4, .E5, .E6, .W5, .W6, .E7, .W7, .F1]

/-- Property lookup `initialBracket[matchupId]` for an arbitrary string id:
`some k` when the string is one of the fifteen keys, `none` otherwise
(JavaScript returns `undefined` on a missing property). -/
def parseBKey (s : String) : Option BKey :=
  allBKeys.find? (fun k => bkeyStr k == s)

/-- The fixed constant `initialBracket` of `teams-config.ts`, field by field. -/
def initialBracket : BracketStructure
  | .E1 => ⟨1, .E1, some "BOS", some "MIA", some .E5, some .team1⟩
  | .E2 => ⟨1, .E2, some "CLE", some "ORL", some .E5, some .team2⟩
  | .E3 => ⟨1, .E3, some "MIL", some "IND", some .E6, some .team1⟩
  | .E4 => ⟨1, .E4, some "NYK", some "PHI", some .E6, some .team2⟩
  | .W1 => ⟨1, .W1, some "OKC", some "NOP", some .W5, some .team1⟩
  | .W2 => ⟨1, .W2, some "LAC", some "DAL", some .W5, some .team2⟩
  | .W3 => ⟨1, .W3, some "MIN", some "PHX", some .W6, some .team1⟩
  | .W4 => ⟨1, .W4, some "DEN", some "LAL", some .W6, some .team2⟩
  | .E5 => ⟨2, .E5, none, none, some .E7, some .team1⟩
  | .E6 => ⟨2, .E6, none, none, some .E7, some .team2⟩
  | .W5 => ⟨2, .W5, none, none, some .W7, some .team1⟩
  | .W6 => ⟨2, .W6, none, none, some .W7, some .team2⟩
  | .E7 => ⟨3, .E7, none, none, some .F1, some .team1⟩
  | .W7 => ⟨3, .W7, none, none, some .F1, some .team2⟩
  | .F1 => ⟨4, .F1, none, none, none, none⟩

/-- A prediction set: JavaScript object entries in iteration order.  A value of
`none` models `undefined`/`null`, `some ""` the empty-string sentinel. -/
abbrev Preds := List (String × Option String)

/-- JavaScript object keys are unique. -/
abbrev keysNodup (P : Preds) : Prop := (P.map Prod.fst).Nodup

/-- Write `w` into slot `pos` of matchup `m`
(`nextMatchup.team1 = winningTeamId` / `.team2 = winningTeamId`). -/
def setTeam (m : MatchupData) (pos : SlotPos) (w : String) : MatchupData :=
  match pos with
  | .team1 => { m with team1 := some w }
  | .team2 => { m with team2 := some w }

/-- One iteration of the `Object.entries(predictions).forEach` body in
`playoff-bracket.tsx` (lines 215–242): look the matchup up in the template
`initialBracket`; skip when it does not exist or the winner is falsy; when the
template matchup has a `nextMatchup`, write the winner into the slot named by
the template matchup's `winnerPosition` in the accumulating bracket. -/
def applyEntry (b : BracketStructure) (e : String × Option String) : BracketStructure :=
  match parseBKey e.1 with
  | none => b
  | some mId =>
    match e.2 with
    | none => b
    | some w =>
      if w = "" then b
      else
        match (initialBracket mId).nextMatchup with
        | none => b
        | some nId =>
          match (initialBracket mId).winnerPosition with
          | none => b
          | some pos => fun k => if k = nId then setTeam (b k) pos w else b k

/-- The prediction pass run from an arbitrary starting bracket. -/
def deriveFrom (b : BracketStructure) (P : Preds) : BracketStructure :=
  P.foldl applyEntry b

/-- The full derivation of the `useEffect` (lines 208–246): deep-clone the
template, then apply every prediction entry. -/
def derive (P : Preds) : BracketStructure :=
  deriveFrom initialBracket P

/-- Read a slot of a matchup. -/
def getSlot (m : MatchupData) (pos : SlotPos) : Option String :=
  match pos with
  | .team1 => m.team1
  | .team2 => m.team2

/-- Champion extraction of `saveUserPredictions`:
`const champion = (userPredictions.F1 as NbaTeamKey) || null`. -/
def champion (P : Preds) : Option String :=
  match P.lookup "F1" with
  | some (some w) => if w = "" then none else some w
  | _ => none

/-- `updateBracketStructure` of `teams-config.ts`: the shallow merge
`{ ...currentBracket, ...newBracketData }` of a partial record into the
current bracket, with no validation of any kind. -/
def updateBracketStructure (currentBracket : BracketStructure)
    (newBracketData : BKey → Option MatchupData) : BracketStructure :=
  fun k =>
    match newBracketData k with
    | some m => m
    | none => currentBracket k

/-- The value (if any) that a single prediction entry writes into slot
`(k, p)` of the accumulating bracket. -/
def entryWrites (e : String × Option String) (k : BKey) (p : SlotPos) : Option String :=
  match parseBKey e.1 with
  | none => none
  | some mId =>
    match e.2 with
    | none => none
    | some w =>
      if w = "" then none
      else
        match (initialBracket mId).nextMatchup with
        | none => none
        | some nId =>
          match (initialBracket mId).winnerPosition with
          | none => none
          | some pos => if nId = k ∧ pos = p then some w else none

/-- The value written into slot `(k, p)` by the latest relevant entry of `P`,
if any entry writes it at all. -/
def lastWrite : Preds → BKey → SlotPos → Option String
  | [], _, _ => none
  | e :: rest, k, p =>
    match lastWrite rest k p with
    | some w => some w
    | none => entryWrites e k p

lemma parse_bkeyStr (k : BKey) : parseBKey (bkeyStr k) = some k := by
  cases k <;> rfl

lemma parseBKey_eq_some {s : String} {k : BKey} (h : parseBKey s = some k) :
    s = bkeyStr k := by
  have h' := List.find?_some h
  have := of_decide_eq_true h'
  exact this.symm

lemma uniqueWriter : ∀ m₁ m₂ : BKey, ∀ n : BKey, ∀ p : SlotPos,
    (initialBracket m₁).nextMatchup = some n → (initialBracket m₁).winnerPosition = some p →
    (initialBracket m₂).nextMatchup = some n → (initialBracket m₂).winnerPosition = some p →
    m₁ = m₂ := by decide

lemma round1_not_target : ∀ m k : BKey, (initialBracket k).round = 1 →
    (initialBracket m).nextMatchup ≠ some k := by decide

lemma applyEntry_frame (b : BracketStructure) (e : String × Option String) (k : BKey) :
    (applyEntry b e k).round = (b k).round ∧
    (applyEntry b e k).matchupId = (b k).matchupId ∧
    (applyEntry b e k).nextMatchup = (b k).nextMatchup ∧
    (applyEntry b e k).winnerPosition = (b k).winnerPosition := by
  rcases e with ⟨s, v⟩
  unfold applyEntry
  dsimp only
  cases hp : parseBKey s with
  | none => exact ⟨rfl, rfl, rfl, rfl⟩
  | some m =>
    cases v with
    | none => exact ⟨rfl, rfl, rfl, rfl⟩
    | some w =>
      by_cases hw : w = ""
      · simp [hw]
      · simp only [if_neg hw]
        cases hn : (initialBracket m).nextMatchup with
        | none => exact ⟨rfl, rfl, rfl, rfl⟩
        | some nId =>
          cases hq : (initialBracket m).winnerPosition with
          | none => exact ⟨rfl, rfl, rfl, rfl⟩
          | some pos =>
            by_cases hk : k = nId
            · subst hk
              simp only [if_pos rfl]
              cases pos <;> simp [setTeam]
            · simp [hk]

lemma deriveFrom_frame (P : Preds) : ∀ b : BracketStructure, ∀ k : BKey,
    (deriveFrom b P k).round = (b k).round ∧
    (deriveFrom b P k).matchupId = (b k).matchupId ∧
    (deriveFrom b P k).nextMatchup = (b k).nextMatchup ∧
    (deriveFrom b P k).winnerPosition = (b k).winnerPosition := by
  induction P with
  | nil => intro b k; exact ⟨rfl, rfl, rfl, rfl⟩
  | cons e rest ih =>
    intro b k
    have h₁ := ih (applyEntry b e) k
    have h₂ := applyEntry_frame b e k
    exact ⟨h₁.1.trans h₂.1, h₁.2.1.trans h₂.2.1,
           h₁.2.2.1.trans h₂.2.2.1, h₁.2.2.2.trans h₂.2.2.2⟩

lemma getSlot_applyEntry (b : BracketStructure) (e : String × Option String)
    (k : BKey) (p : SlotPos) :
    getSlot (applyEntry b e k) p =
      match entryWrites e k p with
      | some w => some w
      | none => getSlot (b k) p := by
  rcases e with ⟨s, v⟩
  unfold applyEntry entryWrites
  dsimp only
  cases hp : parseBKey s with
  | none => rfl
  | some m =>
    cases v with
    | none => rfl
    | some w =>
      by_cases hw : w = ""
      · simp [hw]
      · simp only [if_neg hw]
        cases hn : (initialBracket m).nextMatchup with
        | none => rfl
        | some nId =>
          cases hq : (initialBracket m).winnerPosition with
          | none => rfl
          | some pos =>
            by_cases hk : k = nId
            · subst hk
              cases pos <;> cases p <;> simp [setTeam, getSlot]
            · have hne : ¬ (nId = k ∧ pos = p) := fun hc => hk hc.1.symm
              simp [hk, hne]

lemma lastWrite_cons (e : String × Option String) (rest : Preds) (k : BKey) (p : SlotPos) :
    lastWrite (e :: rest) k p =
      match lastWrite rest k p with
      | some w => some w
      | none => entryWrites e k p := rfl

lemma fold_slot (P : Preds) : ∀ b : BracketStructure, ∀ k : BKey, ∀ p : SlotPos,
    getSlot (deriveFrom b P k) p =
      match lastWrite P k p with
      | some w => some w
      | none => getSlot (b k) p := by
  induction P with
  | nil => intro b k p; rfl
  | cons e rest ih =>
    intro b k p
    show getSlot (deriveFrom (applyEntry b e) rest k) p = _
    rw [lastWrite_cons, ih (applyEntry b e) k p]
    cases hl : lastWrite rest k p with
    | some w => rfl
    | none => exact getSlot_applyEntry b e k p

lemma entryWrites_eq_some {e : String × Option String} {k : BKey} {p : SlotPos}
    {w : String} (h : entryWrites e k p = some w) :
    ∃ m : BKey, parseBKey e.1 = some m ∧ e.2 = some w ∧ w ≠ "" ∧
      (initialBracket m).nextMatchup = some k ∧
      (initialBracket m).winnerPosition = some p := by
  unfold entryWrites at h
  repeat' split at h
  all_goals simp_all

lemma matchup_eq (m₁ m₂ : MatchupData) (h₁ : m₁.round = m₂.round)
    (h₂ : m₁.matchupId = m₂.matchupId) (h₃ : m₁.team1 = m₂.team1)
    (h₄ : m₁.team2 = m₂.team2) (h₅ : m₁.nextMatchup = m₂.nextMatchup)
    (h₆ : m₁.winnerPosition = m₂.winnerPosition) : m₁ = m₂ := by
  cases m₁; cases m₂; simp_all

lemma keysNodup_cons {e : String × Option String} {P : Preds} (h : keysNodup (e :: P)) :
    e.1 ∉ P.map Prod.fst ∧ keysNodup P := by
  have h' : (e.1 :: P.map Prod.fst).Nodup := h
  exact List.nodup_cons.mp h'

lemma entryWrites_eq_none_of_key_ne {e : String × Option String} {k : BKey}
    {p : SlotPos} {M : BKey}
    (hn : (initialBracket M).nextMatchup = some k)
    (hq : (initialBracket M).winnerPosition = some p)
    (hke : e.1 ≠ bkeyStr M) : entryWrites e k p = none := by
  cases he : entryWrites e k p with
  | none => rfl
  | some w =>
    obtain ⟨m, hpm, _, _, hn', hq'⟩ := entryWrites_eq_some he
    have hmM : m = M := uniqueWriter m M k p hn' hq' hn hq
    have : e.1 = bkeyStr M := by rw [parseBKey_eq_some hpm, hmM]
    exact absurd this hke

lemma lastWrite_eq_none_of_key_not_mem {P : Preds} {k : BKey} {p : SlotPos} {M : BKey}
    (hn : (initialBracket M).nextMatchup = some k)
    (hq : (initialBracket M).winnerPosition = some p)
    (hmem : bkeyStr M ∉ P.map Prod.fst) : lastWrite P k p = none := by
  induction P with
  | nil => rfl
  | cons e rest ih =>
    have hmem' : bkeyStr M ∉ rest.map Prod.fst := fun hc => hmem (List.mem_cons_of_mem _ hc)
    have hke : e.1 ≠ bkeyStr M := by
      intro hc
      exact hmem (hc ▸ List.mem_cons_self _ _)
    rw [lastWrite_cons, ih hmem']
    exact entryWrites_eq_none_of_key_ne hn hq hke

lemma lastWrite_eq_none_of_no_writer {P : Preds} {k : BKey} {p : SlotPos}
    (hnw : ∀ m : BKey, ¬ ((initialBracket m).nextMatchup = some k ∧
      (initialBracket m).winnerPosition = some p)) : lastWrite P k p = none := by
  induction P with
  | nil => rfl
  | cons e rest ih =>
    rw [lastWrite_cons, ih]
    cases he : entryWrites e k p with
    | none => rfl
    | some w =>
      obtain ⟨m, _, _, _, hn, hq⟩ := entryWrites_eq_some he
      exact absurd ⟨hn, hq⟩ (hnw m)

lemma entryWrites_self {v : Option String} {k : BKey} {p : SlotPos} {M : BKey}
    (hn : (initialBracket M).nextMatchup = some k)
    (hq : (initialBracket M).winnerPosition = some p) :
    entryWrites (bkeyStr M, v) k p =
      match v with
      | some w => if w = "" then none else some w
      | none => none := by
  cases v with
  | none => simp [entryWrites, parse_bkeyStr]
  | some w =>
    by_cases hw : w = "" <;> simp [entryWrites, parse_bkeyStr, hn, hq, hw]

lemma lookup_lastWrite {P : Preds} {k : BKey} {p : SlotPos} {M : BKey}
    (hnd : keysNodup P)
    (hn : (initialBracket M).nextMatchup = some k)
    (hq : (initialBracket M).winnerPosition = some p) :
    lastWrite P k p =
      match P.lookup (bkeyStr M) with
      | some (some w) => if w = "" then none else some w
      | _ => none := by
  induction P with
  | nil => rfl
  | cons e rest ih =>
    obtain ⟨hhd, htl⟩ := keysNodup_cons hnd
    rcases e with ⟨s, v⟩
    by_cases hs : s = bkeyStr M
    · have hl : ((s, v) :: rest).lookup (bkeyStr M) = some v := by
        simp [List.lookup, hs]
      have hhd' : bkeyStr M ∉ rest.map Prod.fst := hs ▸ hhd
      rw [hl, lastWrite_cons,
        lastWrite_eq_none_of_key_not_mem hn hq hhd', hs,
        entryWrites_self hn hq]
      cases v with
      | none => rfl
      | some w => rfl
    · have hl : ((s, v) :: rest).lookup (bkeyStr M) = rest.lookup (bkeyStr M) := by
        have : (bkeyStr M == s) = false := by
          simp [Ne.symm hs]
        simp [List.lookup, this]
      rw [hl, lastWrite_cons, ih htl]
      have hke : ((s, v) : String × Option String).1 ≠ bkeyStr M := hs
      cases hlk : rest.lookup (bkeyStr M) with
      | none => simpa using entryWrites_eq_none_of_key_ne hn hq hke
      | some v' =>
        cases v' with
        | none => simpa using entryWrites_eq_none_of_key_ne hn hq hke
        | some w =>
          by_cases hw : w = ""
          · simp only [hw, if_pos rfl]
            simpa using entryWrites_eq_none_of_key_ne hn hq hke
          · simp [hw]

lemma lastWrite_perm {k : BKey} {p : SlotPos} :
    ∀ {P Q : Preds}, P.Perm Q → keysNodup P → lastWrite P k p = lastWrite Q k p := by
  intro P Q h
  induction h with
  | nil => intro _; rfl
  | cons x h ih =>
    intro hnd
    rw [lastWrite_cons, lastWrite_cons, ih (keysNodup_cons hnd).2]
  | swap x y l =>
    intro hnd
    obtain ⟨hy, hrest⟩ := keysNodup_cons hnd
    obtain ⟨hx, _⟩ := keysNodup_cons hrest
    have hxy : y.1 ≠ x.1 := fun hc => hy (hc ▸ List.mem_cons_self _ _)
    rw [lastWrite_cons, lastWrite_cons, lastWrite_cons, lastWrite_cons]
    cases hl : lastWrite l k p with
    | some w => rfl
    | none =>
      cases hex : entryWrites x k p with
      | none =>
        cases hey : entryWrites y k p with
        | none => rfl
        | some w => rfl
      | some w₁ =>
        cases hey : entryWrites y k p with
        | none => rfl
        | some w₂ =>
          obtain ⟨m₁, hpm₁, _, _, hn₁, hq₁⟩ := entryWrites_eq_some hex
          obtain ⟨m₂, hpm₂, _, _, hn₂, hq₂⟩ := entryWrites_eq_some hey
          have hm : m₁ = m₂ := uniqueWriter m₁ m₂ k p hn₁ hq₁ hn₂ hq₂
          have : y.1 = x.1 := by
            rw [parseBKey_eq_some hpm₂, parseBKey_eq_some hpm₁, hm]
          exact absurd this hxy
  | trans h₁ h₂ ih₁ ih₂ =>
    intro hnd
    have hnd' : keysNodup _ := ((h₁.map Prod.fst).nodup_iff).mp hnd
    exact (ih₁ hnd).trans (ih₂ hnd')

lemma applyEntry_unknown (b : BracketStructure) (e : String × Option String)
    (h : parseBKey e.1 = none) : applyEntry b e = b := by
  unfold applyEntry
  rw [h]

lemma applyEntry_falsy (b : BracketStructure) (e : String × Option String)
    (h : e.2 = none ∨ e.2 = some "") : applyEntry b e = b := by
  unfold applyEntry
  cases hp : parseBKey e.1 with
  | none => rfl
  | some m =>
    rcases h with h | h
    · rw [h]
    · rw [h]; simp

lemma applyEntry_root (b : BracketStructure) (e : String × Option String) (m : BKey)
    (hp : parseBKey e.1 = some m) (hr : (initialBracket m).nextMatchup = none) :
    applyEntry b e = b := by
  unfold applyEntry
  rw [hp]
  cases h₂ : e.2 with
  | none => rfl
  | some w =>
    by_cases hw : w = ""
    · simp [hw]
    · simp [hw, hr]

example : derive [] = initialBracket := rfl
example : getSlot (derive [("E1", some "MIA")] .E5) .team1 = some "MIA" := by decide
example : getSlot (derive [("E1", some "MIA")] .E7) .team1 = none := by decide
example : derive [("nonsense", some "X")] = derive [] := by decide
example : champion [("F1", some "BOS")] = some "BOS" := by decide

/-- C4: unknown-matchup tolerance — a prediction entry whose matchup id is not
a key of the template is ignored: deriving with the entry present equals
deriving with it removed, wherever it sits in the entry order, and the
derivation is a total function (it never throws on any prediction set). -/
theorem unknown_matchup_tolerance (P₁ P₂ : Preds) (s : String) (v : Option String)
    (h : parseBKey s = none) :
    derive (P₁ ++ (s, v) :: P₂) = derive (P₁ ++ P₂) := by
  unfold derive deriveFrom
  rw [List.foldl_append, List.foldl_append]
  show List.foldl applyEntry (applyEntry _ (s, v)) P₂ = _
  rw [applyEntry_unknown _ (s, v) h]

/-- Witness for C4: deriving from only a nonexistent id behaves exactly like
deriving from the empty prediction set. -/
theorem unknown_matchup_tolerance_witness :
    parseBKey "nonexistent-id" = none ∧
    derive [("nonexistent-id", some "X")] = derive [] :=
  ⟨by decide, unknown_matchup_tolerance [] [] "nonexistent-id" (some "X") (by decide)⟩

/-- C10: empty-winner tolerance — an entry whose winner value is `null`
(`none`) or the empty string is skipped exactly like an unknown-matchup
entry: deriving with it present equals deriving with it removed. -/
theorem empty_winner_skipped (P₁ P₂ : Preds) (s : String) (v : Option String)
    (h : v = none ∨ v = some "") :
    derive (P₁ ++ (s, v) :: P₂) = derive (P₁ ++ P₂) := by
  unfold derive deriveFrom
  rw [List.foldl_append, List.foldl_append]
  show List.foldl applyEntry (applyEntry _ (s, v)) P₂ = _
  rw [applyEntry_falsy _ (s, v) h]

/-- Witness for C10: an empty-string pick for E1 is a no-op. -/
theorem empty_winner_skipped_witness :
    ((some "" : Option String) = none ∨ (some "" : Option String) = some "") ∧
    derive [("E1", some "")] = derive [] :=
  ⟨Or.inr rfl, empty_winner_skipped [] [] "E1" (some "") (Or.inr rfl)⟩

/-- C5: round-1 fixed seeds — for every prediction set, every round-1 matchup
of the derived bracket is identical to the template's matchup (team1 and
team2 are exactly the fixed seeds); no prediction entry can overwrite a
round-1 slot. -/
theorem round1_fixed_seeds (P : Preds) (k : BKey)
    (h : (initialBracket k).round = 1) : derive P k = initialBracket k := by
  have hf := deriveFrom_frame P initialBracket k
  have hw : ∀ p : SlotPos, lastWrite P k p = none := fun p =>
    lastWrite_eq_none_of_no_writer (fun m hc => round1_not_target m k h hc.1)
  have h₁ := fold_slot P initialBracket k .team1
  have h₂ := fold_slot P initialBracket k .team2
  rw [hw .team1] at h₁
  rw [hw .team2] at h₂
  exact matchup_eq _ _ hf.1 hf.2.1 h₁ h₂ hf.2.2.1 hf.2.2.2

/-- Witness for C5: E1 keeps BOS vs MIA no matter what is predicted. -/
theorem round1_fixed_seeds_witness :
    (initialBracket .E1).round = 1 ∧
    derive [("E1", some "MIA"), ("E5", some "CLE")] .E1 = initialBracket .E1 :=
  ⟨rfl, round1_fixed_seeds [("E1", some "MIA"), ("E5", some "CLE")] .E1 rfl⟩

/-- C9: template-field frame condition — derivation preserves `round`,
`matchupId`, `nextMatchup` and `winnerPosition` of every matchup, and a
matchup that is not the `nextMatchup` target of any template matchup is
returned entirely unchanged (only team slots of targeted matchups can
change). -/
theorem template_field_frame (P : Preds) (k : BKey) :
    (derive P k).round = (initialBracket k).round ∧
    (derive P k).matchupId = (initialBracket k).matchupId ∧
    (derive P k).nextMatchup = (initialBracket k).nextMatchup ∧
    (derive P k).winnerPosition = (initialBracket k).winnerPosition ∧
    ((∀ m : BKey, (initialBracket m).nextMatchup ≠ some k) →
      derive P k = initialBracket k) := by
  have hf := deriveFrom_frame P initialBracket k
  refine ⟨hf.1, hf.2.1, hf.2.2.1, hf.2.2.2, ?_⟩
  intro hnt
  have hw : ∀ p : SlotPos, lastWrite P k p = none := fun p =>
    lastWrite_eq_none_of_no_writer (fun m hc => hnt m hc.1)
  have h₁ := fold_slot P initialBracket k .team1
  have h₂ := fold_slot P initialBracket k .team2
  rw [hw .team1] at h₁
  rw [hw .team2] at h₂
  exact matchup_eq _ _ hf.1 hf.2.1 h₁ h₂ hf.2.2.1 hf.2.2.2

/-- Witness for C9: E2 is nobody's target, so it is untouched by an E1 pick;
its template fields survive any prediction set. -/
theorem template_field_frame_witness :
    derive [("E1", some "MIA")] .E2 = initialBracket .E2 :=
  (template_field_frame [("E1", some "MIA")] .E2).2.2.2.2 (by decide)

/-- C6: root-matchup prediction — an entry for the root matchup F1 (which has
no `nextMatchup`) changes no slot of any matchup: deriving with it equals
deriving without it.  Its predicted winner is recorded as the champion
(`saveUserPredictions`): champion equals the F1 entry when present and
nonempty, and is `null` when the prediction set has no F1 entry. -/
theorem root_prediction_champion :
    (∀ P₁ P₂ : Preds, ∀ v : Option String,
      derive (P₁ ++ ("F1", v) :: P₂) = derive (P₁ ++ P₂)) ∧
    (∀ P : Preds, ∀ w : String, P.lookup "F1" = some (some w) → w ≠ "" →
      champion P = some w) ∧
    (∀ P : Preds, P.lookup "F1" = none → champion P = none) := by
  refine ⟨?_, ?_, ?_⟩
  · intro P₁ P₂ v
    unfold derive deriveFrom
    rw [List.foldl_append, List.foldl_append]
    show List.foldl applyEntry (applyEntry _ ("F1", v)) P₂ = _
    rw [applyEntry_root _ ("F1", v) .F1 rfl rfl]
  · intro P w hl hw
    unfold champion
    rw [hl]
    simp [hw]
  · intro P hl
    unfold champion
    rw [hl]

/-- Witness for C6: an F1 pick leaves the bracket as if absent, and becomes
the champion. -/
theorem root_prediction_champion_witness :
    derive [("F1", some "OKC")] = derive [] ∧
    champion [("F1", some "OKC")] = some "OKC" :=
  ⟨root_prediction_champion.1 [] [] (some "OKC"),
   root_prediction_champion.2.1 [("F1", some "OKC")] "OKC" rfl (by decide)⟩

/-- C1: one-hop propagation — if the prediction set has a nonempty entry for
matchup M and the template wires M into slot s of matchup N, then slot s of
N in the derived bracket equals that winner, with no entry for N needed; and
conversely a slot whose (unique) feeding matchup has no entry keeps its
template value, so a round-1 winner is never chained through round 2 into
round 3 without an intervening round-2 entry. -/
theorem one_hop_propagation :
    (∀ P : Preds, ∀ M N : BKey, ∀ s : SlotPos, ∀ w : String,
      keysNodup P → P.lookup (bkeyStr M) = some (some w) → w ≠ "" →
      (initialBracket M).nextMatchup = some N →
      (initialBracket M).winnerPosition = some s →
      getSlot (derive P N) s = some w) ∧
    (∀ P : Preds, ∀ M N : BKey, ∀ s : SlotPos,
      keysNodup P →
      (initialBracket M).nextMatchup = some N →
      (initialBracket M).winnerPosition = some s →
      P.lookup (bkeyStr M) = none →
      getSlot (derive P N) s = getSlot (initialBracket N) s) := by
  constructor
  · intro P M N s w hnd hl hw hn hq
    have hc := lookup_lastWrite hnd hn hq
    rw [hl] at hc
    simp only [if_neg hw] at hc
    have hs := fold_slot P initialBracket N s
    rw [hc] at hs
    exact hs
  · intro P M N s hnd hn hq hl
    have hc := lookup_lastWrite hnd hn hq
    rw [hl] at hc
    have hs := fold_slot P initialBracket N s
    rw [hc] at hs
    exact hs

/-- Witness for C1: a lone E1 pick lands in E5 team1 but does not reach E7. -/
theorem one_hop_propagation_witness :
    getSlot (derive [("E1", some "MIA")] .E5) .team1 = some "MIA" ∧
    getSlot (derive [("E1", some "MIA")] .E7) .team1 =
      getSlot (initialBracket .E7) .team1 :=
  ⟨one_hop_propagation.1 [("E1", some "MIA")] .E1 .E5 .team1 "MIA"
      (by decide) rfl (by decide) rfl rfl,
   one_hop_propagation.2 [("E1", some "MIA")] .E5 .E7 .team1
      (by decide) rfl rfl rfl⟩

/-- C8: per-entry noninterference — slot s of matchup N in the derived
bracket depends only on the prediction entry (present or absent) for the
matchup M that the template wires into that slot: two prediction sets that
agree on M's entry give the same value there.  In particular clearing a
round-1 pick does not retract a round-2 winner still present in the set. -/
theorem per_entry_noninterference (P₁ P₂ : Preds) (M N : BKey) (s : SlotPos)
    (h₁ : keysNodup P₁) (h₂ : keysNodup P₂)
    (hn : (initialBracket M).nextMatchup = some N)
    (hq : (initialBracket M).winnerPosition = some s)
    (ha : P₁.lookup (bkeyStr M) = P₂.lookup (bkeyStr M)) :
    getSlot (derive P₁ N) s = getSlot (derive P₂ N) s := by
  have c₁ := lookup_lastWrite h₁ hn hq
  have c₂ := lookup_lastWrite h₂ hn hq
  rw [ha] at c₁
  have e₁ := fold_slot P₁ initialBracket N s
  have e₂ := fold_slot P₂ initialBracket N s
  rw [c₁] at e₁
  rw [c₂] at e₂
  unfold derive
  rw [e₁, e₂]

/-- Witness for C8: dropping the E1 pick leaves the propagated E5 winner in
E7 team1 untouched. -/
theorem per_entry_noninterference_witness :
    getSlot (derive [("E1", some "BOS"), ("E5", some "MIA")] .E7) .team1 =
      getSlot (derive [("E5", some "MIA")] .E7) .team1 :=
  per_entry_noninterference [("E1", some "BOS"), ("E5", some "MIA")]
    [("E5", some "MIA")] .E5 .E7 .team1
    (by decide) (by decide) rfl rfl (by decide)

/-- C2: order independence and idempotence — deriving from any permutation of
the prediction entries yields the same bracket, and re-running the
prediction pass over an already-derived bracket changes nothing; the result
is a pure function of the template and the prediction set. -/
theorem derive_order_independent_idempotent :
    (∀ P Q : Preds, keysNodup P → P.Perm Q → derive P = derive Q) ∧
    (∀ P : Preds, deriveFrom (derive P) P = derive P) := by
  constructor
  · intro P Q hnd hperm
    funext k
    have fP := deriveFrom_frame P initialBracket k
    have fQ := deriveFrom_frame Q initialBracket k
    have hslot : ∀ p : SlotPos, getSlot (derive P k) p = getSlot (derive Q k) p := by
      intro p
      have eP := fold_slot P initialBracket k p
      have eQ := fold_slot Q initialBracket k p
      unfold derive
      rw [eP, eQ, lastWrite_perm hperm hnd]
    exact matchup_eq _ _ (fP.1.trans fQ.1.symm) (fP.2.1.trans fQ.2.1.symm)
      (hslot .team1) (hslot .team2)
      (fP.2.2.1.trans fQ.2.2.1.symm) (fP.2.2.2.trans fQ.2.2.2.symm)
  · intro P
    funext k
    have f₁ := deriveFrom_frame P (derive P) k
    have hslot : ∀ p : SlotPos,
        getSlot (deriveFrom (derive P) P k) p = getSlot (derive P k) p := by
      intro p
      have e₁ := fold_slot P (derive P) k p
      have e₂ := fold_slot P initialBracket k p
      cases hl : lastWrite P k p with
      | some w =>
        rw [hl] at e₁ e₂
        exact e₁.trans e₂.symm
      | none =>
        rw [hl] at e₁
        exact e₁
    exact matchup_eq _ _ f₁.1 f₁.2.1 (hslot .team1) (hslot .team2)
      f₁.2.2.1 f₁.2.2.2

/-- Witness for C2: swapping two entries leaves the derived bracket
bit-identical, and re-applying the pass is a no-op. -/
theorem derive_order_independent_idempotent_witness :
    keysNodup [("E1", some "MIA"), ("W1", some "OKC")] ∧
    List.Perm [("E1", some "MIA"), ("W1", some "OKC")]
      [("W1", some "OKC"), ("E1", some "MIA")] ∧
    derive [("E1", some "MIA"), ("W1", some "OKC")] =
      derive [("W1", some "OKC"), ("E1", some "MIA")] ∧
    deriveFrom (derive [("E1", some "MIA"), ("W1", some "OKC")])
        [("E1", some "MIA"), ("W1", some "OKC")] =
      derive [("E1", some "MIA"), ("W1", some "OKC")] :=
  ⟨by decide, List.Perm.swap _ _ _,
   derive_order_independent_idempotent.1 _ _ (by decide) (List.Perm.swap _ _ _),
   derive_order_independent_idempotent.2 _⟩

/-- C7: template topology invariants of the fixed constant — F1 is the unique
matchup without a `nextMatchup`; no two distinct matchups target the same
(nextMatchup, winnerPosition) pair; and along every edge the successor's
round is exactly one more than the predecessor's. -/
theorem template_topology_invariants :
    (∀ k : BKey, (initialBracket k).nextMatchup = none ↔ k = BKey.F1) ∧
    (∀ k₁ k₂ n : BKey, ∀ p : SlotPos,
      (initialBracket k₁).nextMatchup = some n →
      (initialBracket k₁).winnerPosition = some p →
      (initialBracket k₂).nextMatchup = some n →
      (initialBracket k₂).winnerPosition = some p →
      k₁ = k₂) ∧
    (∀ k n : BKey, (initialBracket k).nextMatchup = some n →
      (initialBracket n).round = (initialBracket k).round + 1) :=
  ⟨by decide, by decide, by decide⟩

/-- Witness for C7: the duplicate-target and round-monotonicity conjuncts,
instantiated at E1's edge into E5. -/
theorem template_topology_invariants_witness :
    BKey.E1 = BKey.E1 ∧
    (initialBracket BKey.E5).round = (initialBracket BKey.E1).round + 1 :=
  ⟨template_topology_invariants.2.1 .E1 .E1 .E5 .team1 rfl rfl rfl rfl,
   template_topology_invariants.2.2 .E1 .E5 rfl⟩

/-- An update that rewires W7 into slot team1 of F1, the slot E7 already
feeds: together with the untouched E7 entry this makes a duplicate
(nextMatchup, winnerPosition) target. -/
def badOverride : BKey → Option MatchupData :=
  fun k =>
    if k = BKey.W7 then some ⟨3, BKey.W7, none, none, some BKey.F1, some SlotPos.team1⟩
    else none

/-- Counterexample to C3: the repository has no `MalformedTemplateError` and
performs no construction-time validation — merging a duplicate-slot-target
override succeeds and returns a bracket in which the distinct matchups E7
and W7 both target (F1, team1). -/
theorem malformed_template_not_rejected :
    BKey.E7 ≠ BKey.W7 ∧
    (updateBracketStructure initialBracket badOverride BKey.E7).nextMatchup = some BKey.F1 ∧
    (updateBracketStructure initialBracket badOverride BKey.E7).winnerPosition = some SlotPos.team1 ∧
    (updateBracketStructure initialBracket badOverride BKey.W7).nextMatchup = some BKey.F1 ∧
    (updateBracketStructure initialBracket badOverride BKey.W7).winnerPosition = some SlotPos.team1 := by
  refine ⟨by decide, rfl, rfl, rfl, rfl⟩

/-- C3 amended: template construction performs no validation at all —
`updateBracketStructure` is the unconditional shallow merge of its inputs,
and in particular it accepts and returns a template with a duplicate
(nextMatchup, winnerPosition) slot target instead of failing. -/
theorem updateBracketStructure_no_validation :
    (∀ b : BracketStructure, ∀ d : BKey → Option MatchupData, ∀ k : BKey,
      updateBracketStructure b d k =
        match d k with
        | some m => m
        | none => b k) ∧
    (∃ k₁ k₂ : BKey, k₁ ≠ k₂ ∧
      (updateBracketStructure initialBracket badOverride k₁).nextMatchup = some BKey.F1 ∧
      (updateBracketStructure initialBracket badOverride k₁).winnerPosition = some SlotPos.team1 ∧
      (updateBracketStructure initialBracket badOverride k₂).nextMatchup = some BKey.F1 ∧
      (updateBracketStructure initialBracket badOverride k₂).winnerPosition = some SlotPos.team1) :=
  ⟨fun _ _ _ => rfl, ⟨BKey.E7, BKey.W7, by decide, rfl, rfl, rfl, rfl⟩⟩
